import Mathlib

/-
Verification development for the reminder-tui repository.

The Go source is shallowly embedded:
  - time.Time instants and time.Duration values are modelled as Int
    (nanoseconds, the unit of Go's time.Duration; time.Hour = 3600e9 ns).
    Go's t.Before(u) is t < u, t.After(u) is u < t, t.Sub(u) is t - u.
  - Methods that call time.Now() take the current instant as an explicit
    `now : Int` argument.
  - Go slices are Lean lists; maps are association lists.
  - Fallible operations return a Bool success flag or an Option.
-/

namespace ReminderTui

/-- Task status enum from internal/models/task.go
(TaskStatusPending, TaskStatusInProgress, TaskStatusCompleted, TaskStatusOverdue). -/
inductive TaskStatus where
  | Pending
  | InProgress
  | Completed
  | Overdue
deriving DecidableEq, Repr

/-- Priority constants from internal/models/note.go (Low=1, Medium=2, High=3). -/
def LowPriority : Int := 1

def MediumPriority : Int := 2

def HighPriority : Int := 3

/-- One hour in nanoseconds, the value of Go's time.Hour. -/
def timeHour : Int := 3600000000000

/-- Note record from internal/models/note.go. -/
structure Note where
  ID : String
  Title : String
  Content : String
  CreatedAt : Int
  UpdatedAt : Int
  Tags : List String
  Priority : Int
  IsCompleted : Bool
  DueDate : Int
deriving DecidableEq, Repr

/-- Task record from internal/models/task.go. -/
structure Task where
  ID : String
  Title : String
  Description : String
  CreatedAt : Int
  UpdatedAt : Int
  DueDate : Int
  ReminderAt : Int
  Priority : Int
  Status : TaskStatus
  Tags : List String
  NoteID : String
deriving DecidableEq, Repr

/-- models.NewTask: the generated unique identifier is impure in the source,
so it is passed explicitly; reminder defaults to due date minus one hour. -/
def NewTask (id title description : String) (dueDate now : Int) : Task :=
  { ID := id
    Title := title
    Description := description
    CreatedAt := now
    UpdatedAt := now
    DueDate := dueDate
    ReminderAt := dueDate - timeHour
    Priority := MediumPriority
    Status := TaskStatus.Pending
    Tags := []
    NoteID := "" }

/-- Task.SetReminderTime from internal/models/task.go. -/
def Task.SetReminderTime (t : Task) (reminderAt now : Int) : Task :=
  { t with ReminderAt := reminderAt, UpdatedAt := now }

/-- Task.SetReminderPeriod from internal/models/task.go: reminder = due - period. -/
def Task.SetReminderPeriod (t : Task) (period now : Int) : Task :=
  { t with ReminderAt := t.DueDate - period, UpdatedAt := now }

/-- Task.MarkInProgress: the source assigns TaskStatusCompleted (not
TaskStatusInProgress) to the status field. -/
def Task.MarkInProgress (t : Task) (now : Int) : Task :=
  { t with Status := TaskStatus.Completed, UpdatedAt := now }

/-- Task.Complete from internal/models/task.go. -/
def Task.Complete (t : Task) (now : Int) : Task :=
  { t with Status := TaskStatus.Completed, UpdatedAt := now }

/-- Task.Update from internal/models/task.go, preserving the source's
statement order: the due-date field is assigned first, then
offset := t.DueDate.Sub(t.ReminderAt) reads the NEW due date, then
ReminderAt := dueDate.Add(-offset). -/
def Task.Update (t : Task) (title description : String) (dueDate now : Int) : Task :=
  let t1 : Task :=
    { t with Title := title, Description := description, DueDate := dueDate, UpdatedAt := now }
  let offset : Int := t1.DueDate - t1.ReminderAt
  { t1 with ReminderAt := dueDate - offset }

/-- Task.IsOverDue: time.Now().After(t.DueDate) && t.Status != TaskStatusCompleted. -/
def Task.IsOverDue (t : Task) (now : Int) : Bool :=
  decide (t.DueDate < now) && decide (t.Status ≠ TaskStatus.Completed)

/-- Task.UpdateStatus: returns early when Completed, otherwise promotes to
Overdue when IsOverDue holds. -/
def Task.UpdateStatus (t : Task) (now : Int) : Task :=
  if t.Status = TaskStatus.Completed then t
  else if t.IsOverDue now then { t with Status := TaskStatus.Overdue } else t

/-- Index of the first occurrence of a tag, mirroring the indexed range
loops of the RemoveTag methods. -/
def findTagIdx : List String → String → Nat → Option Nat
  | [], _, _ => none
  | s :: rest, tag, i => if s = tag then some i else findTagIdx rest tag (i + 1)

/-- Task.AddTag: returns unchanged if the tag is already present, else appends. -/
def Task.AddTag (t : Task) (tag : String) (now : Int) : Task :=
  if t.Tags.contains tag then t
  else { t with Tags := t.Tags ++ [tag], UpdatedAt := now }

/-- Task.RemoveTag from internal/models (part_003): at the first index i
holding the tag the source executes t.Tags = append(t.Tags, t.Tags[i+1:]...),
i.e. the suffix after i is appended to the WHOLE current list (there is no
[:i] slice on the first argument). -/
def Task.RemoveTag (t : Task) (tag : String) (now : Int) : Task :=
  match findTagIdx t.Tags tag 0 with
  | none => t
  | some i => { t with Tags := t.Tags ++ t.Tags.drop (i + 1), UpdatedAt := now }

/-- Task.SetPriority from internal/models/task.go. -/
def Task.SetPriority (t : Task) (priority : Int) (now : Int) : Task :=
  { t with Priority := priority, UpdatedAt := now }

/-- Task.LinkToNote from internal/models/task.go. -/
def Task.LinkToNote (t : Task) (noteID : String) (now : Int) : Task :=
  { t with NoteID := noteID, UpdatedAt := now }

/-- Note.AddTag from internal/models/note.go. -/
def Note.AddTag (n : Note) (tag : String) (now : Int) : Note :=
  if n.Tags.contains tag then n
  else { n with Tags := n.Tags ++ [tag], UpdatedAt := now }

/-- Note.RemoveTag from internal/models/note.go: n.Tags = append(n.Tags[:i],
n.Tags[i+1:]...), removing the element at the first matching index. -/
def Note.RemoveTag (n : Note) (tag : String) (now : Int) : Note :=
  match findTagIdx n.Tags tag 0 with
  | none => n
  | some i => { n with Tags := n.Tags.take i ++ n.Tags.drop (i + 1), UpdatedAt := now }

/-- Iterated Task.UpdateStatus over a list of observation instants. -/
def applyUpdateStatusAll (t : Task) : List Int → Task
  | [] => t
  | now :: rest => applyUpdateStatusAll (t.UpdateStatus now) rest

/-- C3: a Completed task is absorbing for the automatic status check:
Task.UpdateStatus returns a Completed task unchanged, so any number of
UpdateStatus calls, at arbitrary current times and regardless of the due
date, leaves the status Completed. -/
theorem claim_C3_completed_absorbing (t : Task) (h : t.Status = TaskStatus.Completed) :
    (∀ now : Int, t.UpdateStatus now = t) ∧
    (∀ nows : List Int, (applyUpdateStatusAll t nows).Status = TaskStatus.Completed) := by
  have hfix : ∀ now : Int, t.UpdateStatus now = t := by
    intro now
    unfold Task.UpdateStatus
    simp [h]
  refine ⟨hfix, ?_⟩
  intro nows
  induction nows with
  | nil => simpa [applyUpdateStatusAll] using h
  | cons a rest ih =>
      simpa [applyUpdateStatusAll, hfix a] using ih

/-- Concrete Completed task used by witnesses. -/
def witTaskCompleted : Task :=
  { ID := "done1"
    Title := "t"
    Description := ""
    CreatedAt := 0
    UpdatedAt := 0
    DueDate := -100
    ReminderAt := -200
    Priority := 2
    Status := TaskStatus.Completed
    Tags := []
    NoteID := "" }

/-- C3 witness: the theorem instantiated at a concrete Completed task whose
due date is far in the past, checked over two concrete ticks. -/
theorem claim_C3_witness :
    witTaskCompleted.Status = TaskStatus.Completed ∧
    (applyUpdateStatusAll witTaskCompleted [0, 999999999999999]).Status = TaskStatus.Completed :=
  ⟨by decide, (claim_C3_completed_absorbing witTaskCompleted (by decide)).2 [0, 999999999999999]⟩

/-- C8: Task.Update leaves ReminderAt exactly unchanged: because the due-date
field is assigned before the offset is computed, the offset equals the new
due date minus the old ReminderAt, and newDueDate - offset is the old
ReminderAt again; the due date itself does get the new value. -/
theorem claim_C8_update_keeps_reminder (t : Task) (title description : String)
    (dueDate now : Int) :
    (t.Update title description dueDate now).ReminderAt = t.ReminderAt ∧
    (t.Update title description dueDate now).DueDate = dueDate := by
  unfold Task.Update
  constructor
  · simp
  · simp

/-- C9: Task.MarkInProgress assigns TaskStatusCompleted, exactly as
Task.Complete does (the two methods are the same function), and no operation
of the models package ever produces a task in the InProgress state: every
constructor or mutator applied to a task whose status is not InProgress
yields a task whose status is still not InProgress. -/
theorem claim_C9_no_op_reaches_inprogress (t : Task) (h : t.Status ≠ TaskStatus.InProgress) :
    (∀ now : Int, t.MarkInProgress now = t.Complete now ∧
        (t.MarkInProgress now).Status = TaskStatus.Completed) ∧
    (∀ (id title description tag noteID : String) (dueDate r p priority now : Int),
      (NewTask id title description dueDate now).Status ≠ TaskStatus.InProgress ∧
      (t.SetReminderTime r now).Status ≠ TaskStatus.InProgress ∧
      (t.SetReminderPeriod p now).Status ≠ TaskStatus.InProgress ∧
      (t.MarkInProgress now).Status ≠ TaskStatus.InProgress ∧
      (t.Complete now).Status ≠ TaskStatus.InProgress ∧
      (t.Update title description dueDate now).Status ≠ TaskStatus.InProgress ∧
      (t.UpdateStatus now).Status ≠ TaskStatus.InProgress ∧
      (t.AddTag tag now).Status ≠ TaskStatus.InProgress ∧
      (t.RemoveTag tag now).Status ≠ TaskStatus.InProgress ∧
      (t.SetPriority priority now).Status ≠ TaskStatus.InProgress ∧
      (t.LinkToNote noteID now).Status ≠ TaskStatus.InProgress) := by
  constructor
  · intro now
    exact ⟨rfl, rfl⟩
  · intro id title description tag noteID dueDate r p priority now
    refine ⟨by simp [NewTask], h, h, by simp [Task.MarkInProgress], by simp [Task.Complete],
      h, ?_, ?_, ?_, h, h⟩
    · unfold Task.UpdateStatus
      split
      · exact h
      · split
        · simp
        · exact h
    · unfold Task.AddTag
      split
      · exact h
      · exact h
    · unfold Task.RemoveTag
      split
      · exact h
      · exact h

/-- Concrete Pending task used by the C9 witness. -/
def witTaskPending : Task :=
  { ID := "p1"
    Title := "t"
    Description := ""
    CreatedAt := 0
    UpdatedAt := 0
    DueDate := 10
    ReminderAt := 5
    Priority := 2
    Status := TaskStatus.Pending
    Tags := ["x"]
    NoteID := "" }

/-- C9 witness: the theorem instantiated at a concrete Pending task. -/
theorem claim_C9_witness :
    witTaskPending.Status ≠ TaskStatus.InProgress ∧
    witTaskPending.MarkInProgress 3 = witTaskPending.Complete 3 ∧
    (witTaskPending.MarkInProgress 3).Status = TaskStatus.Completed :=
  ⟨by decide, (claim_C9_no_op_reaches_inprogress witTaskPending (by decide)).1 3⟩

/-- Concrete two-tag task used to evaluate the Task.RemoveTag slip. -/
def witTaskTwoTags : Task :=
  { ID := "tags1"
    Title := "t"
    Description := ""
    CreatedAt := 0
    UpdatedAt := 0
    DueDate := 10
    ReminderAt := 5
    Priority := 2
    Status := TaskStatus.Pending
    Tags := ["a", "b"]
    NoteID := "" }

/-- C7: evaluation of the code at a failing input. Task.RemoveTag on a task
with duplicate-free tags ["a", "b"], removing "a", yields ["a", "b", "b"]:
the tag is not removed and the tail is duplicated, so the no-duplicates
property of the tag set is destroyed (the source appends Tags[i+1:] to the
whole Tags slice instead of to Tags[:i]). -/
theorem claim_C7_removeTag_breaks_nodup :
    (witTaskTwoTags.RemoveTag "a" 3).Tags = ["a", "b", "b"] ∧
    witTaskTwoTags.Tags.Nodup ∧
    ¬ (witTaskTwoTags.RemoveTag "a" 3).Tags.Nodup := by
  refine ⟨by decide, by decide, ?_⟩
  intro hcontra
  have : (["a", "b", "b"] : List String).Nodup := by
    have heq : (witTaskTwoTags.RemoveTag "a" 3).Tags = ["a", "b", "b"] := by decide
    exact heq ▸ hcontra
  simp at this

/-- The upsert loop shared verbatim by FileStorage.SaveNote and
FileStorage.SaveTask: replace the first record with a matching identifier
and stop, otherwise append at the end. -/
def upsertBy {α : Type} (idOf : α → String) : List α → α → List α
  | [], x => [x]
  | y :: ys, x => if idOf y = idOf x then x :: ys else y :: upsertBy idOf ys x

/-- In-memory list transformation of FileStorage.SaveNote. -/
def upsertNote (notes : List Note) (note : Note) : List Note :=
  upsertBy Note.ID notes note

/-- In-memory list transformation of FileStorage.SaveTask. -/
def upsertTask (tasks : List Task) (task : Task) : List Task :=
  upsertBy Task.ID tasks task

/-- The delete loop shared by FileStorage.DeleteNote and
FileStorage.DeleteTask: drop the record at the first matching index
(records[:i] ++ records[i+1:]); none when the identifier is absent,
which the source reports as a not-found error. -/
def deleteBy {α : Type} (idOf : α → String) : List α → String → Option (List α)
  | [], _ => none
  | y :: ys, id => if idOf y = id then some ys
      else (deleteBy idOf ys id).map (fun zs => y :: zs)

/-- Filter loop of FileStorage.GetTasksDueBefore: due date strictly before
the given instant and status not Completed. -/
def FileStorage.GetTasksDueBefore (tasks : List Task) (tm : Int) : List Task :=
  tasks.filter (fun task => decide (task.DueDate < tm) && decide (task.Status ≠ TaskStatus.Completed))

/-- Filter loop of FileStorage.GetTasksWithRemindersBy: reminder instant
strictly before the given instant (task.ReminderAt.Before(time)) and status
not Completed. -/
def FileStorage.GetTasksWithRemindersBy (tasks : List Task) (tm : Int) : List Task :=
  tasks.filter (fun task => decide (task.ReminderAt < tm) && decide (task.Status ≠ TaskStatus.Completed))

/-- Outcome of one os.WriteFile call, chosen by the environment: success,
a failure before the destination is opened (permission denied and the like),
or a failure after k bytes of the new serialization were written. -/
inductive WriteOutcome where
  | ok
  | failOpen
  | failMid (bytesWritten : Nat)
deriving DecidableEq, Repr

/-- Durable state of one collection file: absent, a well-formed container
holding the records, or a truncated prefix (k bytes) of the serialization
of some record list, which the loader can no longer parse. -/
inductive StoreFile (α : Type) where
  | missing
  | valid (records : List α)
  | corrupted (records : List α) (bytesWritten : Nat)
deriving DecidableEq, Repr

/-- Model of the os.WriteFile call made by FileStorage.saveNotes and
FileStorage.saveTasks. The source marshals the records (json.MarshalIndent
cannot fail for these record types) and writes directly to the durable
path — no temporary file, no rename. os.WriteFile opens the destination
with O_TRUNC and writes in place, so a failure before open leaves the file
untouched while a failure mid-write leaves a truncated file. -/
def writeFileModel {α : Type} (records : List α) (o : WriteOutcome) (f : StoreFile α) :
    StoreFile α × Bool :=
  match o with
  | WriteOutcome.ok => (StoreFile.valid records, true)
  | WriteOutcome.failOpen => (f, false)
  | WriteOutcome.failMid k => (StoreFile.corrupted records k, false)

/-- FileStorage.saveNotes: marshal and write the container in place. -/
def FileStorage.saveNotes (notes : List Note) (o : WriteOutcome) (f : StoreFile Note) :
    StoreFile Note × Bool :=
  writeFileModel notes o f

/-- FileStorage.saveTasks: marshal and write the container in place. -/
def FileStorage.saveTasks (tasks : List Task) (o : WriteOutcome) (f : StoreFile Task) :
    StoreFile Task × Bool :=
  writeFileModel tasks o f

/-- FileStorage.loadNotes: a missing file is initialized by persisting the
empty container (failure of that initial write is the load's error); a
parse failure on a corrupt file is an error. -/
def FileStorage.loadNotes (f : StoreFile Note) (oInit : WriteOutcome) :
    StoreFile Note × Option (List Note) :=
  match f with
  | StoreFile.missing =>
      let r := FileStorage.saveNotes [] oInit StoreFile.missing
      (r.1, if r.2 then some [] else none)
  | StoreFile.valid notes => (StoreFile.valid notes, some notes)
  | StoreFile.corrupted a k => (StoreFile.corrupted a k, none)

/-- FileStorage.loadTasks, same shape as loadNotes. -/
def FileStorage.loadTasks (f : StoreFile Task) (oInit : WriteOutcome) :
    StoreFile Task × Option (List Task) :=
  match f with
  | StoreFile.missing =>
      let r := FileStorage.saveTasks [] oInit StoreFile.missing
      (r.1, if r.2 then some [] else none)
  | StoreFile.valid tasks => (StoreFile.valid tasks, some tasks)
  | StoreFile.corrupted a k => (StoreFile.corrupted a k, none)

/-- FileStorage.SaveNote at the durable-file level: load, upsert, write back.
Returns the new durable state and a success flag (false = error returned). -/
def FileStorage.SaveNote (note : Note) (oInit oWrite : WriteOutcome) (f : StoreFile Note) :
    StoreFile Note × Bool :=
  match FileStorage.loadNotes f oInit with
  | (f1, none) => (f1, false)
  | (f1, some notes) => FileStorage.saveNotes (upsertNote notes note) oWrite f1

/-- FileStorage.SaveTask at the durable-file level. -/
def FileStorage.SaveTask (task : Task) (oInit oWrite : WriteOutcome) (f : StoreFile Task) :
    StoreFile Task × Bool :=
  match FileStorage.loadTasks f oInit with
  | (f1, none) => (f1, false)
  | (f1, some tasks) => FileStorage.saveTasks (upsertTask tasks task) oWrite f1

/-- FileStorage.DeleteNote at the durable-file level: load, remove the first
record with the identifier and write back, or fail with not-found. -/
def FileStorage.DeleteNote (id : String) (oInit oWrite : WriteOutcome) (f : StoreFile Note) :
    StoreFile Note × Bool :=
  match FileStorage.loadNotes f oInit with
  | (f1, none) => (f1, false)
  | (f1, some notes) =>
      match deleteBy Note.ID notes id with
      | some notes1 => FileStorage.saveNotes notes1 oWrite f1
      | none => (f1, false)

/-- FileStorage.DeleteTask at the durable-file level. -/
def FileStorage.DeleteTask (id : String) (oInit oWrite : WriteOutcome) (f : StoreFile Task) :
    StoreFile Task × Bool :=
  match FileStorage.loadTasks f oInit with
  | (f1, none) => (f1, false)
  | (f1, some tasks) =>
      match deleteBy Task.ID tasks id with
      | some tasks1 => FileStorage.saveTasks tasks1 oWrite f1
      | none => (f1, false)

/-- Concrete note already durable in the C2 counterexample. -/
def witNoteOld : Note :=
  { ID := "n1"
    Title := "old"
    Content := "c"
    CreatedAt := 0
    UpdatedAt := 0
    Tags := []
    Priority := 2
    IsCompleted := false
    DueDate := 0 }

/-- Concrete note being saved in the C2 counterexample. -/
def witNoteNew : Note :=
  { ID := "n2"
    Title := "new"
    Content := "d"
    CreatedAt := 1
    UpdatedAt := 1
    Tags := []
    Priority := 2
    IsCompleted := false
    DueDate := 0 }

/-- C2 counterexample: a SaveNote call whose write fails after 0 bytes
returns an error, yet the previously-durable state is NOT left unchanged:
the durable file no longer equals its prior valid contents (it holds a
truncated write), because the source writes in place with os.WriteFile
instead of writing a temporary file and renaming. -/
theorem claim_C2_counterexample :
    (FileStorage.SaveNote witNoteNew WriteOutcome.ok (WriteOutcome.failMid 0)
        (StoreFile.valid [witNoteOld])).2 = false ∧
    (FileStorage.SaveNote witNoteNew WriteOutcome.ok (WriteOutcome.failMid 0)
        (StoreFile.valid [witNoteOld])).1 ≠ StoreFile.valid [witNoteOld] := by
  constructor
  · rfl
  · intro h
    simp [FileStorage.SaveNote, FileStorage.loadNotes, FileStorage.saveNotes,
      writeFileModel] at h

/-- C2 amended: a failing SaveNote, SaveTask, DeleteNote or DeleteTask leaves
the previously-durable state unchanged only when the failure occurs before
the destination file is opened; the code performs no temporary-file write
and no atomic replace, and a failure once the in-place write has begun
leaves a truncated, unparseable file (claim_C2_counterexample). -/
theorem claim_C2_amended (note : Note) (task : Task) (notes : List Note)
    (tasks : List Task) (oInit : WriteOutcome) (id : String) :
    FileStorage.SaveNote note oInit WriteOutcome.failOpen (StoreFile.valid notes) =
      (StoreFile.valid notes, false) ∧
    FileStorage.SaveTask task oInit WriteOutcome.failOpen (StoreFile.valid tasks) =
      (StoreFile.valid tasks, false) ∧
    (FileStorage.DeleteNote id oInit WriteOutcome.failOpen (StoreFile.valid notes)).1 =
      StoreFile.valid notes ∧
    (FileStorage.DeleteTask id oInit WriteOutcome.failOpen (StoreFile.valid tasks)).1 =
      StoreFile.valid tasks := by
  refine ⟨rfl, rfl, ?_, ?_⟩
  · unfold FileStorage.DeleteNote FileStorage.loadNotes
    cases h : deleteBy Note.ID notes id with
    | none => simp [h]
    | some notes1 => simp [h, FileStorage.saveNotes, writeFileModel]
  · unfold FileStorage.DeleteTask FileStorage.loadTasks
    cases h : deleteBy Task.ID tasks id with
    | none => simp [h]
    | some tasks1 => simp [h, FileStorage.saveTasks, writeFileModel]

/-- When no record matches the identifier, the upsert loop falls through and
appends the new record at the end. -/
theorem upsertBy_append {α : Type} (idOf : α → String) (x : α) :
    ∀ xs : List α, (∀ y ∈ xs, idOf y ≠ idOf x) → upsertBy idOf xs x = xs ++ [x] := by
  intro xs
  induction xs with
  | nil => intro _; rfl
  | cons y ys ih =>
      intro h
      unfold upsertBy
      rw [if_neg (h y (by simp))]
      have hrest : ∀ z ∈ ys, idOf z ≠ idOf x := fun z hz => h z (by simp [hz])
      simp [ih hrest]

/-- When some record matches the identifier, the upsert loop replaces the
first match in place: the length and every other position are unchanged. -/
theorem upsertBy_replace {α : Type} (idOf : α → String) (x : α) :
    ∀ xs : List α, (∃ y ∈ xs, idOf y = idOf x) →
    ∃ i, i < xs.length ∧ (∃ z, xs[i]? = some z ∧ idOf z = idOf x) ∧
      (upsertBy idOf xs x).length = xs.length ∧
      (upsertBy idOf xs x)[i]? = some x ∧
      ∀ j, j ≠ i → (upsertBy idOf xs x)[j]? = xs[j]? := by
  intro xs
  induction xs with
  | nil => rintro ⟨y, hy, -⟩; simp at hy
  | cons y ys ih =>
      intro hex
      by_cases hy : idOf y = idOf x
      · refine ⟨0, by simp, ⟨y, by simp, hy⟩, ?_, ?_, ?_⟩
        · unfold upsertBy
          rw [if_pos hy]
          simp
        · unfold upsertBy
          rw [if_pos hy]
          simp
        · intro j hj
          unfold upsertBy
          rw [if_pos hy]
          match j with
          | 0 => exact absurd rfl hj
          | Nat.succ k => simp
      · obtain ⟨w, hw, hwid⟩ := hex
        have hwys : w ∈ ys := by
          rcases List.mem_cons.mp hw with h1 | h1
          · exact absurd (h1 ▸ hwid) hy
          · exact h1
        obtain ⟨i, hi, ⟨z, hz, hzid⟩, hlen, hget, hoth⟩ := ih ⟨w, hwys, hwid⟩
        refine ⟨i + 1, by simpa using hi, ⟨z, by simpa using hz, hzid⟩, ?_, ?_, ?_⟩
        · unfold upsertBy
          rw [if_neg hy]
          simpa using hlen
        · unfold upsertBy
          rw [if_neg hy]
          simpa using hget
        · intro j hj
          unfold upsertBy
          rw [if_neg hy]
          match j with
          | 0 => simp
          | Nat.succ k =>
              have hk : k ≠ i := by omega
              simpa using hoth k hk

/-- C5: for both collections, saving a record whose identifier is already
present replaces the first record carrying that identifier at its existing
position — list length and every other position unchanged — while saving a
record with an absent identifier appends it at the end; and the file-level
SaveTask/SaveNote persist exactly that upserted list. -/
theorem claim_C5_save_upserts (ts : List Task) (x : Task) (ns : List Note) (y : Note) :
    ((∀ z ∈ ts, z.ID ≠ x.ID) → upsertTask ts x = ts ++ [x]) ∧
    ((∃ z ∈ ts, z.ID = x.ID) →
      ∃ i, i < ts.length ∧ (∃ z, ts[i]? = some z ∧ z.ID = x.ID) ∧
        (upsertTask ts x).length = ts.length ∧
        (upsertTask ts x)[i]? = some x ∧
        ∀ j, j ≠ i → (upsertTask ts x)[j]? = ts[j]?) ∧
    ((∀ z ∈ ns, z.ID ≠ y.ID) → upsertNote ns y = ns ++ [y]) ∧
    ((∃ z ∈ ns, z.ID = y.ID) →
      ∃ i, i < ns.length ∧ (∃ z, ns[i]? = some z ∧ z.ID = y.ID) ∧
        (upsertNote ns y).length = ns.length ∧
        (upsertNote ns y)[i]? = some y ∧
        ∀ j, j ≠ i → (upsertNote ns y)[j]? = ns[j]?) ∧
    (∀ oWrite : WriteOutcome,
      FileStorage.SaveTask x WriteOutcome.ok oWrite (StoreFile.valid ts) =
        FileStorage.saveTasks (upsertTask ts x) oWrite (StoreFile.valid ts) ∧
      FileStorage.SaveNote y WriteOutcome.ok oWrite (StoreFile.valid ns) =
        FileStorage.saveNotes (upsertNote ns y) oWrite (StoreFile.valid ns)) :=
  ⟨upsertBy_append Task.ID x ts, upsertBy_replace Task.ID x ts,
   upsertBy_append Note.ID y ns, upsertBy_replace Note.ID y ns,
   fun _ => ⟨rfl, rfl⟩⟩

/-- Second concrete task sharing witTaskPending's identifier, used by the
C5 witness to exercise the replace-in-place branch. -/
def witTaskSameID : Task :=
  { ID := "p1"
    Title := "renamed"
    Description := "r"
    CreatedAt := 7
    UpdatedAt := 7
    DueDate := 20
    ReminderAt := 15
    Priority := 3
    Status := TaskStatus.Overdue
    Tags := []
    NoteID := "" }

/-- C5 witness: the theorem instantiated at concrete lists, exercising the
append branch for tasks and the replace branch for a shared identifier. -/
theorem claim_C5_witness :
    ((∀ z ∈ [witTaskTwoTags], z.ID ≠ witTaskSameID.ID) ∧
      upsertTask [witTaskTwoTags] witTaskSameID = [witTaskTwoTags] ++ [witTaskSameID]) ∧
    ((∃ z ∈ [witTaskTwoTags, witTaskPending], z.ID = witTaskSameID.ID) ∧
      ∃ i, i < ([witTaskTwoTags, witTaskPending] : List Task).length ∧
        (∃ z, ([witTaskTwoTags, witTaskPending] : List Task)[i]? = some z ∧
          z.ID = witTaskSameID.ID) ∧
        (upsertTask [witTaskTwoTags, witTaskPending] witTaskSameID).length =
          ([witTaskTwoTags, witTaskPending] : List Task).length ∧
        (upsertTask [witTaskTwoTags, witTaskPending] witTaskSameID)[i]? =
          some witTaskSameID ∧
        ∀ j, j ≠ i → (upsertTask [witTaskTwoTags, witTaskPending] witTaskSameID)[j]? =
          ([witTaskTwoTags, witTaskPending] : List Task)[j]?) :=
  ⟨⟨by decide,
    (claim_C5_save_upserts [witTaskTwoTags] witTaskSameID [] witNoteOld).1 (by decide)⟩,
   ⟨by decide,
    (claim_C5_save_upserts [witTaskTwoTags, witTaskPending] witTaskSameID [] witNoteOld).2.1
      (by decide)⟩⟩

/-- C6: GetTasksDueBefore returns exactly the stored tasks with due instant
strictly before the query instant and status not Completed; in particular a
Completed task is never in the result, for any query instant. -/
theorem claim_C6_due_before (tasks : List Task) (tm : Int) (x : Task) :
    (x ∈ FileStorage.GetTasksDueBefore tasks tm ↔
      x ∈ tasks ∧ x.DueDate < tm ∧ x.Status ≠ TaskStatus.Completed) ∧
    (x.Status = TaskStatus.Completed → x ∉ FileStorage.GetTasksDueBefore tasks tm) := by
  have hmem : x ∈ FileStorage.GetTasksDueBefore tasks tm ↔
      x ∈ tasks ∧ x.DueDate < tm ∧ x.Status ≠ TaskStatus.Completed := by
    unfold FileStorage.GetTasksDueBefore
    simp [List.mem_filter]
  refine ⟨hmem, ?_⟩
  intro hc hx
  exact (hmem.mp hx).2.2 hc

/-- C6 witness: a concrete Completed task whose due date is far in the past
is absent from a due-before query at a later instant. -/
theorem claim_C6_witness :
    witTaskCompleted.Status = TaskStatus.Completed ∧
    witTaskCompleted ∉ FileStorage.GetTasksDueBefore [witTaskCompleted] 5 :=
  ⟨by decide, (claim_C6_due_before [witTaskCompleted] 5 witTaskCompleted).2 (by decide)⟩

/-- Lookup in the sentReminders map of ReminderService, modelled as an
association list from task identifier to last-reminded instant. -/
def ledgerLookup : List (String × Int) → String → Option Int
  | [], _ => none
  | (k, v) :: rest, id => if k = id then some v else ledgerLookup rest id

/-- Map insert r.sentReminders[task.ID] = now: replace or append. -/
def ledgerInsert : List (String × Int) → String → Int → List (String × Int)
  | [], id, v => [(id, v)]
  | (k, w) :: rest, id, v =>
      if k = id then (id, v) :: rest else (k, w) :: ledgerInsert rest id v

/-- The ledger sweep at the end of checkReminders: delete entries whose
last-reminded instant is more than 24 hours before now. -/
def sweepLedger (now : Int) (ledger : List (String × Int)) : List (String × Int) :=
  ledger.filter (fun kv => !(decide (24 * timeHour < now - kv.2)))

/-- Observable actions of one checkReminders tick, in program order. -/
inductive SchedEvent where
  | ledgerRecord (id : String) (tm : Int)
  | saveAttempt (id : String) (ok : Bool)
  | notifyTask (id : String)
deriving DecidableEq, Repr

/-- Scheduler-visible state: the volatile dedup ledger plus the task
collection behind the Storage interface. -/
structure SchedState where
  sentReminders : List (String × Int)
  storeTasks : List Task
deriving DecidableEq, Repr

/-- Result of the per-task loop of checkReminders. -/
structure ProcResult where
  ledger : List (String × Int)
  store : List Task
  notified : List Task
  events : List SchedEvent
deriving DecidableEq, Repr

/-- The body of checkReminders' range loop over the due tasks. For each task:
read lastSent from the ledger; shouldSend when absent or more than six hours
old; when sending, record now in the ledger, re-evaluate the status via
Task.UpdateStatus, call SaveTask with its error discarded (saveOk says
whether the store write succeeds; on failure the stored list is unchanged),
then invoke the Notifier with the updated task. -/
def processDue (now : Int) (saveOk : Task → Bool) :
    List Task → List (String × Int) → List Task → ProcResult
  | [], ledger, store => ⟨ledger, store, [], []⟩
  | task :: rest, ledger, store =>
      let lastSent := ledgerLookup ledger task.ID
      let shouldSend : Bool :=
        match lastSent with
        | none => true
        | some ls => decide (6 * timeHour < now - ls)
      if shouldSend then
        let ledger1 := ledgerInsert ledger task.ID now
        let task1 := task.UpdateStatus now
        let ok := saveOk task1
        let store1 := if ok then upsertTask store task1 else store
        let r := processDue now saveOk rest ledger1 store1
        ⟨r.ledger, r.store, task1 :: r.notified,
          SchedEvent.ledgerRecord task.ID now ::
            SchedEvent.saveAttempt task1.ID ok ::
              SchedEvent.notifyTask task1.ID :: r.events⟩
      else
        processDue now saveOk rest ledger store

/-- Everything one tick produces: the new scheduler state, the due list the
tick iterated, the tasks handed to the Notifier in order, the event trace,
and the error lines printed (the source only prints on a query failure). -/
structure TickResult where
  state : SchedState
  due : List Task
  notified : List Task
  events : List SchedEvent
  logged : List String
deriving DecidableEq, Repr

/-- ReminderService.checkReminders: capture now, query the store for tasks
with reminders before now (queryOk false models the storage error path,
which prints and returns), run the dedup/notify loop, then sweep ledger
entries older than 24 hours. -/
def ReminderService.checkReminders (now : Int) (saveOk : Task → Bool) (queryOk : Bool)
    (st : SchedState) : TickResult :=
  if queryOk then
    let due := FileStorage.GetTasksWithRemindersBy st.storeTasks now
    let r := processDue now saveOk due st.sentReminders st.storeTasks
    { state := { sentReminders := sweepLedger now r.ledger, storeTasks := r.store }
      due := due
      notified := r.notified
      events := r.events
      logged := [] }
  else
    { state := st, due := [], notified := [], events := [], logged := ["error checking reminders"] }

/-- Save oracle for runs where every store write succeeds. -/
def allSavesOk : Task → Bool := fun _ => true

/-- Save oracle for runs where every store write fails. -/
def noSaveOk : Task → Bool := fun _ => false

/-- Number of Notifier invocations a tick made for a given task identifier. -/
def notifyCount (notified : List Task) (id : String) : Nat :=
  (notified.filter (fun task => decide (task.ID = id))).length

/-- True when no Notifier call for the identifier occurs before the first
ledger record for it in the event trace: the ledger entry is recorded
before the Notifier is invoked. -/
def notifyPrecededBy : List SchedEvent → String → Bool
  | [], _ => true
  | SchedEvent.ledgerRecord i _ :: rest, id =>
      if i = id then true else notifyPrecededBy rest id
  | SchedEvent.notifyTask i :: rest, id =>
      if i = id then false else notifyPrecededBy rest id
  | SchedEvent.saveAttempt _ _ :: rest, id => notifyPrecededBy rest id

/-- Two consecutive ticks over a store holding exactly the given task,
starting from an empty ledger, with all store writes succeeding. -/
def twoTickRun (t : Task) (now1 now2 : Int) : TickResult × TickResult :=
  let tick1 := ReminderService.checkReminders now1 allSavesOk true ⟨[], [t]⟩
  (tick1, ReminderService.checkReminders now2 allSavesOk true tick1.state)

/-- One tick over a store holding exactly the given task, starting from an
empty ledger, with every store write failing. -/
def failingSaveTick (t : Task) (now : Int) : TickResult :=
  ReminderService.checkReminders now noSaveOk true ⟨[], [t]⟩

theorem UpdateStatus_ID (t : Task) (now : Int) : (t.UpdateStatus now).ID = t.ID := by
  unfold Task.UpdateStatus
  split
  · rfl
  · split <;> rfl

theorem UpdateStatus_ReminderAt (t : Task) (now : Int) :
    (t.UpdateStatus now).ReminderAt = t.ReminderAt := by
  unfold Task.UpdateStatus
  split
  · rfl
  · split <;> rfl

theorem UpdateStatus_ne_completed (t : Task) (now : Int)
    (h : t.Status ≠ TaskStatus.Completed) :
    (t.UpdateStatus now).Status ≠ TaskStatus.Completed := by
  unfold Task.UpdateStatus
  split
  · exact h
  · split
    · simp
    · exact h

/-- Evaluation of one tick on a single eligible task never seen by the
ledger: the task fires once, the ledger records now, and the store holds
the re-evaluated task exactly when the save succeeded. -/
theorem checkReminders_single_new (t : Task) (now : Int) (saveOk : Task → Bool)
    (hrem : t.ReminderAt < now) (hst : t.Status ≠ TaskStatus.Completed) :
    ReminderService.checkReminders now saveOk true ⟨[], [t]⟩ =
      { state := { sentReminders := [(t.ID, now)]
                   storeTasks := if saveOk (t.UpdateStatus now)
                     then [t.UpdateStatus now] else [t] }
        due := [t]
        notified := [t.UpdateStatus now]
        events := [SchedEvent.ledgerRecord t.ID now,
          SchedEvent.saveAttempt (t.UpdateStatus now).ID (saveOk (t.UpdateStatus now)),
          SchedEvent.notifyTask (t.UpdateStatus now).ID]
        logged := [] } := by
  have hq : FileStorage.GetTasksWithRemindersBy [t] now = [t] := by
    unfold FileStorage.GetTasksWithRemindersBy
    simp [List.filter, hrem, hst]
  have hupsert : upsertTask [t] (t.UpdateStatus now) = [t.UpdateStatus now] := by
    unfold upsertTask upsertBy
    rw [if_pos (UpdateStatus_ID t now).symm]
  have hsweep : sweepLedger now [(t.ID, now)] = [(t.ID, now)] := by
    unfold sweepLedger
    simp [timeHour]
  cases hsv : saveOk (t.UpdateStatus now) <;>
    simp [ReminderService.checkReminders, hq, processDue, ledgerLookup, ledgerInsert,
      hupsert, hsweep, hsv]

/-- Evaluation of one tick (all saves succeeding) on a single eligible task
whose ledger entry records the instant last: the task fires again exactly
when more than six hours have elapsed since last. -/
theorem checkReminders_single_entry (u : Task) (last now : Int)
    (hrem : u.ReminderAt < now) (hst : u.Status ≠ TaskStatus.Completed) :
    ReminderService.checkReminders now allSavesOk true ⟨[(u.ID, last)], [u]⟩ =
      if 6 * timeHour < now - last then
        { state := { sentReminders := [(u.ID, now)]
                     storeTasks := [u.UpdateStatus now] }
          due := [u]
          notified := [u.UpdateStatus now]
          events := [SchedEvent.ledgerRecord u.ID now,
            SchedEvent.saveAttempt (u.UpdateStatus now).ID true,
            SchedEvent.notifyTask (u.UpdateStatus now).ID]
          logged := [] }
      else
        { state := { sentReminders := [(u.ID, last)], storeTasks := [u] }
          due := [u]
          notified := []
          events := []
          logged := [] } := by
  have hq : FileStorage.GetTasksWithRemindersBy [u] now = [u] := by
    unfold FileStorage.GetTasksWithRemindersBy
    simp [List.filter, hrem, hst]
  have hupsert : upsertTask [u] (u.UpdateStatus now) = [u.UpdateStatus now] := by
    unfold upsertTask upsertBy
    rw [if_pos (UpdateStatus_ID u now).symm]
  by_cases h6 : 6 * timeHour < now - last
  · have hsweep : sweepLedger now [(u.ID, now)] = [(u.ID, now)] := by
      unfold sweepLedger
      simp [timeHour]
    rw [if_pos h6]
    simp [ReminderService.checkReminders, hq, processDue, ledgerLookup, ledgerInsert,
      hupsert, hsweep, h6, allSavesOk]
  · have h24 : ¬ (24 * timeHour < now - last) := by
      intro hc
      apply h6
      have hlt : (6 : Int) * timeHour < 24 * timeHour := by norm_num [timeHour]
      exact lt_trans hlt hc
    have hsweep : sweepLedger now [(u.ID, last)] = [(u.ID, last)] := by
      unfold sweepLedger
      simp [h24]
    rw [if_neg h6]
    simp [ReminderService.checkReminders, hq, processDue, ledgerLookup, hsweep, h6]

/-- C1: for a task whose reminder instant precedes the first tick and whose
status is not Completed, two consecutive checkReminders executions from a
fresh ledger invoke the Notifier exactly once in total when separated by
less than the six-hour re-notify window and exactly twice when separated by
more than six hours; and in each tick's event trace no Notifier call for
the task occurs before its ledger entry is recorded. -/
theorem claim_C1_dedup (t : Task) (now1 now2 : Int)
    (hrem : t.ReminderAt < now1) (hst : t.Status ≠ TaskStatus.Completed)
    (h12 : now1 ≤ now2) :
    (now2 - now1 < 6 * timeHour →
      notifyCount (twoTickRun t now1 now2).1.notified t.ID +
        notifyCount (twoTickRun t now1 now2).2.notified t.ID = 1) ∧
    (6 * timeHour < now2 - now1 →
      notifyCount (twoTickRun t now1 now2).1.notified t.ID +
        notifyCount (twoTickRun t now1 now2).2.notified t.ID = 2) ∧
    notifyPrecededBy (twoTickRun t now1 now2).1.events t.ID = true ∧
    notifyPrecededBy (twoTickRun t now1 now2).2.events t.ID = true := by
  have hid1 : (t.UpdateStatus now1).ID = t.ID := UpdateStatus_ID t now1
  have hrem1 : (t.UpdateStatus now1).ReminderAt < now2 :=
    lt_of_lt_of_le (by rw [UpdateStatus_ReminderAt]; exact hrem) h12
  have hst1 : (t.UpdateStatus now1).Status ≠ TaskStatus.Completed :=
    UpdateStatus_ne_completed t now1 hst
  have htick1 := checkReminders_single_new t now1 allSavesOk hrem hst
  have htick2 := checkReminders_single_entry (t.UpdateStatus now1) now1 now2 hrem1 hst1
  rw [hid1] at htick2
  have hrun : twoTickRun t now1 now2 =
      (ReminderService.checkReminders now1 allSavesOk true ⟨[], [t]⟩,
       ReminderService.checkReminders now2 allSavesOk true
         ⟨[(t.ID, now1)], [t.UpdateStatus now1]⟩) := by
    unfold twoTickRun
    rw [htick1]
    simp [allSavesOk]
  rw [hrun, htick1, htick2]
  by_cases h6 : 6 * timeHour < now2 - now1
  · rw [if_pos h6]
    refine ⟨?_, ?_, ?_, ?_⟩
    · intro hlt
      exact absurd h6 (lt_asymm hlt)
    · intro _
      simp [notifyCount, allSavesOk, UpdateStatus_ID]
    · simp [notifyPrecededBy, allSavesOk]
    · simp [notifyPrecededBy]
  · rw [if_neg h6]
    refine ⟨?_, ?_, ?_, ?_⟩
    · intro _
      simp [notifyCount, allSavesOk, UpdateStatus_ID]
    · intro hgt
      exact absurd hgt h6
    · simp [notifyPrecededBy, allSavesOk]
    · rfl

/-- Concrete Pending task whose reminder instant is already in the past at
time 0, used by the C1 witness. -/
def witTaskPast : Task :=
  { ID := "w1"
    Title := "t"
    Description := ""
    CreatedAt := -5
    UpdatedAt := -5
    DueDate := 50
    ReminderAt := -1
    Priority := 2
    Status := TaskStatus.Pending
    Tags := []
    NoteID := "" }

/-- C1 witness: two ticks one nanosecond apart (far below six hours) on a
concrete past-reminder task produce exactly one Notifier invocation. -/
theorem claim_C1_witness :
    (witTaskPast.ReminderAt < 0 ∧ witTaskPast.Status ≠ TaskStatus.Completed ∧
      (0 : Int) ≤ 1) ∧
    notifyCount (twoTickRun witTaskPast 0 1).1.notified witTaskPast.ID +
      notifyCount (twoTickRun witTaskPast 0 1).2.notified witTaskPast.ID = 1 :=
  ⟨⟨by decide, by decide, by decide⟩,
   (claim_C1_dedup witTaskPast 0 1 (by decide) (by decide) (by decide)).1 (by decide)⟩

/-- C10: when every SaveTask call fails during a tick, the error is
discarded: the Notifier is still invoked with the re-evaluated task, the
ledger entry just recorded is kept, the stored task collection is unchanged
(the status promotion is lost), and nothing is logged. -/
theorem claim_C10_save_error_discarded (t : Task) (now : Int)
    (hrem : t.ReminderAt < now) (hst : t.Status ≠ TaskStatus.Completed) :
    (failingSaveTick t now).notified = [t.UpdateStatus now] ∧
    (failingSaveTick t now).state.sentReminders = [(t.ID, now)] ∧
    (failingSaveTick t now).state.storeTasks = [t] ∧
    (failingSaveTick t now).logged = [] := by
  have h := checkReminders_single_new t now noSaveOk hrem hst
  unfold failingSaveTick
  rw [h]
  simp [noSaveOk]

/-- Concrete Pending task that is already overdue at time 0, used by the
C10 witness: the tick notifies the Overdue-promoted task while the store
still holds it as Pending. -/
def witTaskOverdueNow : Task :=
  { ID := "o1"
    Title := "t"
    Description := ""
    CreatedAt := -5
    UpdatedAt := -5
    DueDate := -1
    ReminderAt := -2
    Priority := 2
    Status := TaskStatus.Pending
    Tags := []
    NoteID := "" }

/-- C10 witness: the theorem instantiated at a concrete overdue task. -/
theorem claim_C10_witness :
    (witTaskOverdueNow.ReminderAt < 0 ∧ witTaskOverdueNow.Status ≠ TaskStatus.Completed) ∧
    (failingSaveTick witTaskOverdueNow 0).notified = [witTaskOverdueNow.UpdateStatus 0] ∧
    (failingSaveTick witTaskOverdueNow 0).state.sentReminders = [(witTaskOverdueNow.ID, 0)] ∧
    (failingSaveTick witTaskOverdueNow 0).state.storeTasks = [witTaskOverdueNow] ∧
    (failingSaveTick witTaskOverdueNow 0).logged = [] :=
  ⟨⟨by decide, by decide⟩,
   claim_C10_save_error_discarded witTaskOverdueNow 0 (by decide) (by decide)⟩

/-- Concrete non-Completed task whose reminder instant equals the tick
instant exactly, used by the C4 counterexample. -/
def witTaskReminderNow : Task :=
  { ID := "e1"
    Title := "t"
    Description := ""
    CreatedAt := 0
    UpdatedAt := 0
    DueDate := 10
    ReminderAt := 0
    Priority := 2
    Status := TaskStatus.Pending
    Tags := []
    NoteID := "" }

/-- C4 counterexample: a tick at instant 0 over a non-Completed task whose
reminder instant is exactly 0 processes nothing — the query uses the strict
ReminderAt.Before(now), so a task whose reminder equals now is excluded,
contradicting the claim that it is included. -/
theorem claim_C4_counterexample :
    witTaskReminderNow.ReminderAt = (0 : Int) ∧
    witTaskReminderNow.Status ≠ TaskStatus.Completed ∧
    (ReminderService.checkReminders 0 allSavesOk true ⟨[], [witTaskReminderNow]⟩).due = [] ∧
    (ReminderService.checkReminders 0 allSavesOk true ⟨[], [witTaskReminderNow]⟩).notified = [] := by
  refine ⟨rfl, by decide, by decide, by decide⟩

/-- C4 amended: the set of tasks a tick processes is exactly the
non-Completed tasks whose reminder instant is STRICTLY before the captured
now; a task whose reminder instant equals now is excluded until a later
tick. -/
theorem claim_C4_amended (st : SchedState) (now : Int) (saveOk : Task → Bool) (x : Task) :
    (ReminderService.checkReminders now saveOk true st).due =
      FileStorage.GetTasksWithRemindersBy st.storeTasks now ∧
    (x ∈ FileStorage.GetTasksWithRemindersBy st.storeTasks now ↔
      x ∈ st.storeTasks ∧ x.ReminderAt < now ∧ x.Status ≠ TaskStatus.Completed) := by
  constructor
  · simp [ReminderService.checkReminders]
  · unfold FileStorage.GetTasksWithRemindersBy
    simp [List.mem_filter]

/-- C4 amended witness: a task with reminder strictly before now is in the
processed set. -/
theorem claim_C4_amended_witness :
    witTaskPast ∈ FileStorage.GetTasksWithRemindersBy [witTaskPast] 0 :=
  ((claim_C4_amended ⟨[], [witTaskPast]⟩ 0 allSavesOk witTaskPast).2).mpr
    ⟨by decide, by decide, by decide⟩

end ReminderTui
